import Mathlib

/-! # Modbus Serial Line/RTU client: frame encoding and CRC-16

A shallow embedding of `modbus-rtu.go` (package `modbusclient`).

* Bytes (`byte`) and 16-bit words (`uint16`) are natural numbers; every Go
  conversion `byte(e)` is written `e % 256`.
* A Go slice is a list.  An index or slice expression that is out of range
  panics in Go; the embedding returns `none` there.
* The `for` loops are recursions on the number of iterations still to run,
  carrying the loop index explicitly.
-/

set_option maxRecDepth 100000

namespace Modbus

/-! ## Declarations living outside `modbus-rtu.go` -/

/-- Modelled from the spec: the `RTUFrame` struct declaration, which is not in
`modbus-rtu.go`.  `SlaveAddress` and `FunctionCode` are 8-bit, `StartRegister`
and `NumberOfRegisters` are 16-bit, `Data` is a byte slice. -/
structure RTUFrame where
  SlaveAddress : Nat
  FunctionCode : Nat
  StartRegister : Nat
  NumberOfRegisters : Nat
  Data : List Nat
deriving Repr, DecidableEq

/-- The values an `RTUFrame` can hold in Go: each field within the range of its
machine type. -/
def RTUFrame.WellTyped (frame : RTUFrame) : Prop :=
  frame.SlaveAddress < 256 ∧ frame.FunctionCode < 256 ∧
  frame.StartRegister < 65536 ∧ frame.NumberOfRegisters < 65536 ∧
  ∀ b ∈ frame.Data, b < 256

instance (frame : RTUFrame) : Decidable frame.WellTyped := by
  unfold RTUFrame.WellTyped; infer_instance

/-- Modelled from the spec: the package constants and the error table used by
`modbus-rtu.go` but declared elsewhere (`RTU_FRAME_MAXSIZE`,
`TCP_FRAME_MAXSIZE`, `MODBUS_EXCEPTIONS`,
`EXCEPTION_GATEWAY_TARGET_DEVICE_FAILED_TO_RESPOND`).  They are parameters of
the development; `ε` is the type of Go `error` values. -/
structure Consts (ε : Type) where
  RTU_FRAME_MAXSIZE : Nat
  TCP_FRAME_MAXSIZE : Nat
  EXCEPTION_GATEWAY_TARGET_DEVICE_FAILED_TO_RESPOND : Nat
  MODBUS_EXCEPTIONS : Nat → ε

/-! ## `crc` -/

/-- One pass of the inner loop body `if crc16&0x0001 > 0 { ... } else { ... }`. -/
def crcShift (crc16 : Nat) : Nat :=
  if crc16 &&& 0x0001 > 0 then (crc16 >>> 1) ^^^ 0xA001 else crc16 >>> 1

/-- The inner loop `for j := 0; j < 8; j++`, with `n = 8 - j` passes left. -/
def crcInner : Nat → Nat → Nat
  | 0, crc16 => crc16
  | n + 1, crc16 => crcInner n (crcShift crc16)

/-- The outer loop `for i := 0; i < l; i++`, with `n = l - i` passes left. -/
def crcOuter (data : List Nat) : Nat → Nat → Nat → Nat
  | 0, _, crc16 => crc16
  | n + 1, i, crc16 => crcOuter data n (i + 1) (crcInner 8 (crc16 ^^^ data.getD i 0))

/-- The function `crc(data []byte) uint16`. -/
def crc (data : List Nat) : Nat :=
  crcOuter data data.length 0 0xffff

/-! ## `GenerateRTUFrame` -/

/-- The assignment `packet[i] = v`; `none` when `i` is out of range. -/
def store (packet : List Nat) (i v : Nat) : Option (List Nat) :=
  if i < packet.length then some (packet.set i v) else none

/-- The slice expression `packet[:n]`; `none` when `n` exceeds the capacity. -/
def sliceTo (packet : List Nat) (n : Nat) : Option (List Nat) :=
  if n ≤ packet.length then some (packet.take n) else none

/-- The loop `for i := 0; i < nr; i++ { packet[bytesUsed+i] = frame.Data[i] }`,
with `n = nr - i` passes left. -/
def copyData (data : List Nat) (bytesUsed : Nat) : Nat → Nat → List Nat → Option (List Nat)
  | 0, _, packet => some packet
  | n + 1, i, packet =>
    match data[i]? with
    | none => none
    | some d =>
      match store packet (bytesUsed + i) d with
      | none => none
      | some packet1 => copyData data bytesUsed n (i + 1) packet1

/-- The block guarded by `if len(frame.Data) > 0`: returns the packet and the
new value of `bytesUsed`. -/
def writePayload (frame : RTUFrame) (packet : List Nat) (bytesUsed : Nat) :
    Option (List Nat × Nat) :=
  if frame.Data.length > 0 then
    let nr := frame.NumberOfRegisters * 2
    (store packet bytesUsed (nr % 256)).bind fun packet =>
    let bytesUsed := bytesUsed + 1
    (copyData frame.Data bytesUsed nr 0 packet).bind fun packet =>
    some (packet, bytesUsed + nr)
  else some (packet, bytesUsed)

/-- The method `(frame *RTUFrame) GenerateRTUFrame() []byte`; `none` when the Go
code panics on an out-of-range index. -/
def GenerateRTUFrame (RTU_FRAME_MAXSIZE : Nat) (frame : RTUFrame) : Option (List Nat) :=
  let packetLen := if frame.Data.length > 0 then RTU_FRAME_MAXSIZE else 8
  let bytesUsed := 0
  let packet := List.replicate packetLen 0
  (store packet 0 frame.SlaveAddress).bind fun packet =>
  (store packet 1 frame.FunctionCode).bind fun packet =>
  (store packet 2 ((frame.StartRegister >>> 8) % 256)).bind fun packet =>
  (store packet 3 ((frame.StartRegister &&& 0xff) % 256)).bind fun packet =>
  (store packet 4 ((frame.NumberOfRegisters >>> 8) % 256)).bind fun packet =>
  (store packet 5 ((frame.NumberOfRegisters &&& 0xff) % 256)).bind fun packet =>
  let bytesUsed := bytesUsed + 6
  (writePayload frame packet bytesUsed).bind fun (packet, bytesUsed) =>
  (sliceTo packet bytesUsed).bind fun head =>
  let packet_crc := crc head
  (store packet bytesUsed ((packet_crc &&& 0xff) % 256)).bind fun packet =>
  (store packet (bytesUsed + 1) ((packet_crc >>> 8) % 256)).bind fun packet =>
  some packet

/-! ## `Read` over a modelled transport -/

/-- What one call of `fd.Read(response)` does: the bytes it stores at the front
of the buffer and whether it returns a non-nil error. -/
structure ReadReply where
  bytes : List Nat
  failed : Bool
deriving Repr, DecidableEq

/-- A model of the `*os.File` handle: a state of type `σ`, a `Write` that
reports whether it returned a non-nil error, and a `Read` that is given the
capacity of the receive buffer. -/
structure Transport (σ : Type) where
  Write : σ → List Nat → σ × Bool
  Read : σ → Nat → σ × ReadReply

/-- The calls `Read` makes, in order. -/
inductive Call where
  | fdWrite (adu : List Nat)
  | sleep (milliseconds : Nat)
  | fdRead (capacity : Nat)
deriving Repr, DecidableEq

/-- The two results of `Read`, with the calls made and the final state of the
transport. -/
structure Outcome (σ ε : Type) where
  bytes : List Nat
  err : Option ε
  calls : List Call
  final : σ

/-- The buffer `response` after `fd.Read(response)`: the bytes read, then the
zeros `make` put there. -/
def fillBuffer (capacity : Nat) (bytes : List Nat) : List Nat :=
  (bytes ++ List.replicate (capacity - bytes.length) 0).take capacity

/-- The method `(frame *RTUFrame) Read(fd *os.File) ([]byte, error)`; `none`
when `GenerateRTUFrame` panics. -/
def Read {σ ε : Type} (k : Consts ε) (frame : RTUFrame) (fd : Transport σ) (s : σ) :
    Option (Outcome σ ε) :=
  (GenerateRTUFrame k.RTU_FRAME_MAXSIZE frame).bind fun adu =>
  let (s1, err) := fd.Write s adu
  if err then
    some ⟨[], some (k.MODBUS_EXCEPTIONS k.EXCEPTION_GATEWAY_TARGET_DEVICE_FAILED_TO_RESPOND),
      [Call.fdWrite adu], s1⟩
  else
    let (s2, reply) := fd.Read s1 k.TCP_FRAME_MAXSIZE
    let response := fillBuffer k.TCP_FRAME_MAXSIZE reply.bytes
    if reply.failed then
      some ⟨[], some (k.MODBUS_EXCEPTIONS k.EXCEPTION_GATEWAY_TARGET_DEVICE_FAILED_TO_RESPOND),
        [Call.fdWrite adu, Call.sleep 300, Call.fdRead k.TCP_FRAME_MAXSIZE], s2⟩
    else
      some ⟨response, none,
        [Call.fdWrite adu, Call.sleep 300, Call.fdRead k.TCP_FRAME_MAXSIZE], s2⟩

/-! ## The reference CRC-16/Modbus -/

/-- The reference step for one bit: shift right, and XOR with `0xA001` when the
low bit was set. -/
def refBit (acc : Nat) : Nat :=
  if acc.testBit 0 then (acc >>> 1) ^^^ 0xA001 else acc >>> 1

/-- The reference step for one byte: XOR it into the low 8 bits of the
accumulator, then apply the bit step 8 times. -/
def refByte (acc b : Nat) : Nat :=
  refBit^[8] (acc ^^^ b)

/-- The reference bit-reflected CRC-16/Modbus as a left fold from `0xFFFF`. -/
def refCRC (bytes : List Nat) : Nat :=
  bytes.foldl refByte 0xFFFF

/-! ## The layout of an encoded frame -/

/-- The six bytes of the fixed header, as `GenerateRTUFrame` lays them out. -/
def headerBytes (frame : RTUFrame) : List Nat :=
  [frame.SlaveAddress, frame.FunctionCode,
   (frame.StartRegister >>> 8) % 256, (frame.StartRegister &&& 0xff) % 256,
   (frame.NumberOfRegisters >>> 8) % 256, (frame.NumberOfRegisters &&& 0xff) % 256]

/-- The bytes `packet[:bytesUsed]` the CRC is computed over: the header, then
for a non-empty `Data` the byte count and the first `2 * NumberOfRegisters`
bytes of `Data`. -/
def bodyBytes (frame : RTUFrame) : List Nat :=
  if frame.Data.length > 0 then
    headerBytes frame ++
      (frame.NumberOfRegisters * 2 % 256) :: frame.Data.take (frame.NumberOfRegisters * 2)
  else headerBytes frame

/-- The bytes `body`, their CRC (low byte, then high byte) and `k` zero bytes. -/
def closeFrame (body : List Nat) (k : Nat) : List Nat :=
  body ++ (crc body &&& 0xff) % 256 :: (crc body >>> 8) % 256 :: List.replicate k 0

/-! ## Stores and slices on a zero-filled buffer -/

theorem store_eq_some {p q : List Nat} {i v : Nat} (h : store p i v = some q) :
    i < p.length ∧ q = p.set i v := by
  unfold store at h
  split at h
  · simp only [Option.some.injEq] at h
    exact ⟨by assumption, h.symm⟩
  · simp at h

theorem store_length {p q : List Nat} {i v : Nat} (h : store p i v = some q) :
    q.length = p.length := by
  rw [(store_eq_some h).2, List.length_set]

theorem store_zeros (pre : List Nat) (k i v : Nat) (hi : pre.length = i) :
    store (pre ++ List.replicate (k + 1) 0) i v = some ((pre ++ [v]) ++ List.replicate k 0) := by
  subst hi
  have hlt : pre.length < (pre ++ List.replicate (k + 1) 0).length := by simp
  simp [store, List.replicate_succ]

theorem sliceTo_zeros (pre : List Nat) (k i : Nat) (hi : pre.length = i) :
    sliceTo (pre ++ List.replicate k 0) i = some pre := by
  subst hi
  simp [sliceTo]

theorem copyData_some {data : List Nat} {b : Nat} :
    ∀ (n i : Nat) (p q : List Nat), copyData data b n i p = some q →
      q.length = p.length ∧ (0 < n → i + n ≤ data.length ∧ b + i + n ≤ p.length) := by
  intro n
  induction n with
  | zero =>
    intro i p q h
    simp only [copyData, Option.some.injEq] at h
    subst h
    exact ⟨rfl, fun h0 => absurd h0 (Nat.lt_irrefl 0)⟩
  | succ n ih =>
    intro i p q h
    rw [copyData] at h
    cases hd : data[i]? with
    | none => rw [hd] at h; simp at h
    | some d =>
      rw [hd] at h
      simp only at h
      cases hs : store p (b + i) d with
      | none => rw [hs] at h; simp at h
      | some p1 =>
        rw [hs] at h
        simp only at h
        have hlen := store_length hs
        have hlt := (store_eq_some hs).1
        have hi : i < data.length := by
          rcases List.getElem?_eq_some.1 hd with ⟨hlt2, -⟩
          exact hlt2
        obtain ⟨h1, h2⟩ := ih (i + 1) p1 q h
        refine ⟨h1.trans hlen, fun _ => ?_⟩
        rcases Nat.eq_zero_or_pos n with hn | hn
        · subst hn; omega
        · have := h2 hn
          omega

theorem copyData_zeros {data : List Nat} {b : Nat} :
    ∀ (n i k : Nat) (pre : List Nat), pre.length = b + i → i + n ≤ data.length →
      copyData data b n i (pre ++ List.replicate (n + k) 0) =
        some ((pre ++ (data.drop i).take n) ++ List.replicate k 0) := by
  intro n
  induction n with
  | zero =>
    intro i k pre _ _
    simp [copyData]
  | succ n ih =>
    intro i k pre hpre hle
    have hi : i < data.length := by omega
    rw [copyData, List.getElem?_eq_getElem hi]
    simp only
    have e : n + 1 + k = (n + k) + 1 := by omega
    rw [e, store_zeros pre (n + k) (b + i) data[i] hpre]
    simp only
    rw [ih (i + 1) k (pre ++ [data[i]]) (by simp [hpre]; omega) (by omega)]
    rw [List.drop_eq_getElem_cons hi, List.take_succ_cons]
    simp

/-! ## `GenerateRTUFrame` in closed form -/

theorem GenerateRTUFrame_empty (M : Nat) (frame : RTUFrame) (hd : frame.Data.length = 0) :
    GenerateRTUFrame M frame = some (closeFrame (bodyBytes frame) 0) := by
  simp [GenerateRTUFrame, writePayload, hd, store, sliceTo, List.replicate_succ, closeFrame,
    bodyBytes, headerBytes]

theorem GenerateRTUFrame_payload (k : Nat) (frame : RTUFrame) (hd : 0 < frame.Data.length)
    (hn : frame.NumberOfRegisters * 2 ≤ frame.Data.length) :
    GenerateRTUFrame (frame.NumberOfRegisters * 2 + 9 + k) frame =
      some (closeFrame (bodyBytes frame) k) := by
  have hrep : List.replicate (frame.NumberOfRegisters * 2 + 9 + k) 0 =
      0 :: 0 :: 0 :: 0 :: 0 :: 0 :: List.replicate ((frame.NumberOfRegisters * 2 + (k + 2)) + 1) 0 := by
    rw [show frame.NumberOfRegisters * 2 + 9 + k
      = (frame.NumberOfRegisters * 2 + (k + 2)) + 1 + 1 + 1 + 1 + 1 + 1 + 1 by omega]
    simp only [List.replicate_succ]
  have hw : writePayload frame
      (headerBytes frame ++ List.replicate ((frame.NumberOfRegisters * 2 + (k + 2)) + 1) 0) 6 =
      some (bodyBytes frame ++ List.replicate (k + 2) 0, 6 + 1 + frame.NumberOfRegisters * 2) := by
    unfold writePayload
    rw [if_pos hd]
    simp only
    rw [store_zeros _ _ _ _ (by simp [headerBytes])]
    simp only [Option.bind_eq_bind, Option.some_bind]
    rw [copyData_zeros _ _ _ _ (by simp [headerBytes]) (by omega)]
    simp [bodyBytes, hd]
  have hlen : (bodyBytes frame).length = 6 + 1 + frame.NumberOfRegisters * 2 := by
    simp [bodyBytes, hd, headerBytes, List.length_take, hn]
    omega
  have hfin : ∀ lo hi : Nat,
      ((store (bodyBytes frame ++ List.replicate (k + 2) 0)
          (6 + 1 + frame.NumberOfRegisters * 2) lo).bind fun p =>
        (store p (6 + 1 + frame.NumberOfRegisters * 2 + 1) hi).bind fun p => some p) =
      some (bodyBytes frame ++ lo :: hi :: List.replicate k 0) := by
    intro lo hi
    rw [store_zeros _ _ _ _ hlen]
    simp only [Option.bind_eq_bind, Option.some_bind]
    rw [store_zeros _ _ _ _ (by simp [hlen])]
    simp
  simp only [headerBytes, List.cons_append, List.nil_append] at hw
  unfold GenerateRTUFrame
  simp only [gt_iff_lt, hd, if_true, hrep]
  simp only [store, List.length_cons, List.set_cons_zero, List.set_cons_succ, Nat.zero_lt_succ,
    Nat.succ_lt_succ_iff, if_true, Option.bind_eq_bind, Option.some_bind, Nat.lt_add_one,
    Nat.zero_add]
  rw [hw]
  simp only [Option.some_bind]
  rw [sliceTo_zeros _ _ _ hlen]
  simp only [Option.some_bind]
  have := hfin ((crc (bodyBytes frame) &&& 255) % 256) (crc (bodyBytes frame) >>> 8 % 256)
  simp only [store, Option.bind_eq_bind] at this
  rw [this]
  rfl

theorem writePayload_some {frame : RTUFrame} {p q : List Nat} {u w : Nat}
    (h : writePayload frame p u = some (q, w)) (hd : 0 < frame.Data.length) :
    q.length = p.length ∧ w = u + 1 + frame.NumberOfRegisters * 2 ∧
      (0 < frame.NumberOfRegisters → frame.NumberOfRegisters * 2 ≤ frame.Data.length) := by
  unfold writePayload at h
  rw [if_pos hd] at h
  simp only [Option.bind_eq_bind, Option.bind_eq_some, Option.some.injEq, Prod.mk.injEq] at h
  obtain ⟨p1, h1, p2, h2, h3, h4⟩ := h
  obtain ⟨hl, hb⟩ := copyData_some _ _ _ _ h2
  refine ⟨?_, h4.symm, fun hpos => ?_⟩
  · rw [← h3, hl, store_length h1]
  · have := (hb (by omega)).1
    omega

theorem GenerateRTUFrame_some_bounds {M : Nat} {frame : RTUFrame} {f : List Nat}
    (h : GenerateRTUFrame M frame = some f) (hd : 0 < frame.Data.length) :
    frame.NumberOfRegisters * 2 ≤ frame.Data.length ∧ frame.NumberOfRegisters * 2 + 9 ≤ M := by
  unfold GenerateRTUFrame at h
  simp only [gt_iff_lt, hd, if_true, Option.bind_eq_bind, Option.bind_eq_some] at h
  obtain ⟨p0, h0, p1, h1, p2, h2, p3, h3, p4, h4, p5, h5, ⟨q, w⟩, hw, hd1, hs, p6, h6, p7, h7, -⟩ := h
  obtain ⟨hq, hw1, hb⟩ := writePayload_some hw hd
  have l0 := store_length h0
  have l1 := store_length h1
  have l2 := store_length h2
  have l3 := store_length h3
  have l4 := store_length h4
  have l5 := store_length h5
  have l6 := store_length h6
  have hlt := (store_eq_some h7).1
  simp only [List.length_replicate] at l0
  simp only at hlt hw1 hq l6
  constructor
  · rcases Nat.eq_zero_or_pos frame.NumberOfRegisters with hz | hp
    · omega
    · exact hb hp
  · omega

theorem GenerateRTUFrame_shape {M : Nat} {frame : RTUFrame} {f : List Nat}
    (h : GenerateRTUFrame M frame = some f) :
    ∃ k, f = closeFrame (bodyBytes frame) k ∧
      (frame.Data.length = 0 → k = 0) ∧
      (0 < frame.Data.length → frame.NumberOfRegisters * 2 ≤ frame.Data.length ∧
        M = frame.NumberOfRegisters * 2 + 9 + k) := by
  rcases Nat.eq_zero_or_pos frame.Data.length with hd | hd
  · rw [GenerateRTUFrame_empty M frame hd] at h
    exact ⟨0, (Option.some.inj h).symm, fun _ => rfl, fun hp => absurd hp (by omega)⟩
  · obtain ⟨hn, hM⟩ := GenerateRTUFrame_some_bounds h hd
    obtain ⟨k, rfl⟩ : ∃ k, M = frame.NumberOfRegisters * 2 + 9 + k := ⟨M - (frame.NumberOfRegisters * 2 + 9), by omega⟩
    rw [GenerateRTUFrame_payload k frame hd hn] at h
    exact ⟨k, (Option.some.inj h).symm, fun hz => absurd hz (by omega), fun _ => ⟨hn, rfl⟩⟩

/-! ## The CRC loop as a fold -/

theorem crcShift_eq (c : Nat) :
    crcShift c = if c % 2 = 1 then (c / 2) ^^^ 0xA001 else c / 2 := by
  unfold crcShift
  rw [Nat.and_one_is_mod, Nat.shiftRight_eq_div_pow]
  rcases Nat.mod_two_eq_zero_or_one c with h | h <;> simp [h]

theorem crcShift_eq_refBit (c : Nat) : crcShift c = refBit c := by
  rw [crcShift_eq]
  unfold refBit
  rw [Nat.testBit_zero, Nat.shiftRight_eq_div_pow]
  simp

theorem crcInner_eq_iterate (n c : Nat) : crcInner n c = refBit^[n] c := by
  induction n generalizing c with
  | zero => rfl
  | succ n ih => rw [crcInner, ih, crcShift_eq_refBit, Function.iterate_succ_apply]

theorem crcOuter_eq_foldl (data : List Nat) :
    ∀ (n i c : Nat), i + n ≤ data.length →
      crcOuter data n i c = ((data.drop i).take n).foldl refByte c := by
  intro n
  induction n with
  | zero => intro i c _; simp [crcOuter]
  | succ n ih =>
    intro i c h
    have hi : i < data.length := by omega
    rw [crcOuter, ih (i + 1) _ (by omega), List.drop_eq_getElem_cons hi, List.take_succ_cons,
      List.foldl_cons, List.getD_eq_getElem _ _ hi, crcInner_eq_iterate]
    rfl

theorem crc_eq_refCRC (data : List Nat) : crc data = refCRC data := by
  unfold crc refCRC
  rw [crcOuter_eq_foldl data _ 0 _ (by omega)]
  simp

theorem crc_append (a b : List Nat) : crc (a ++ b) = b.foldl refByte (crc a) := by
  rw [crc_eq_refCRC, crc_eq_refCRC, refCRC, refCRC, List.foldl_append]

/-! ## Range and residue of the CRC -/

theorem refBit_eq (c : Nat) :
    refBit c = if c % 2 = 1 then (c / 2) ^^^ 0xA001 else c / 2 := by
  rw [← crcShift_eq_refBit, crcShift_eq]

theorem refBit_lt {c : Nat} (h : c < 65536) : refBit c < 65536 := by
  rw [refBit_eq]
  have h2 : c / 2 < 2 ^ 16 := by omega
  split
  · exact Nat.xor_lt_two_pow h2 (by norm_num)
  · omega

theorem iterate_refBit_lt (n : Nat) {c : Nat} (h : c < 65536) : refBit^[n] c < 65536 := by
  induction n generalizing c with
  | zero => exact h
  | succ n ih => rw [Function.iterate_succ_apply]; exact ih (refBit_lt h)

theorem refByte_lt {acc b : Nat} (ha : acc < 65536) (hb : b < 256) : refByte acc b < 65536 := by
  unfold refByte
  apply iterate_refBit_lt
  exact Nat.xor_lt_two_pow (n := 16) ha (by omega)

theorem foldl_refByte_lt (l : List Nat) (hl : ∀ b ∈ l, b < 256) :
    ∀ acc, acc < 65536 → l.foldl refByte acc < 65536 := by
  induction l with
  | nil => intro acc h; exact h
  | cons b l ih =>
    intro acc h
    rw [List.foldl_cons]
    exact ih (fun x hx => hl x (List.mem_cons_of_mem _ hx)) _
      (refByte_lt h (hl b (List.mem_cons_self _ _)))

theorem crc_lt (data : List Nat) (h : ∀ b ∈ data, b < 256) : crc data < 65536 := by
  rw [crc_eq_refCRC]
  exact foldl_refByte_lt data h _ (by norm_num)

theorem refBit_double (x : Nat) : refBit (2 * x) = x := by
  rw [refBit_eq]
  have h : 2 * x % 2 ≠ 1 := by omega
  rw [if_neg h]
  omega

theorem xor_low_byte (c : Nat) : c ^^^ (c &&& 255) % 256 = 256 * (c / 256) := by
  apply Nat.eq_of_testBit_eq
  intro j
  have e : (255 : Nat) = 2 ^ 8 - 1 := by norm_num
  have e2 : (256 : Nat) = 2 ^ 8 := by norm_num
  rw [e, Nat.and_pow_two_sub_one_eq_mod, e2, Nat.mod_mod, Nat.testBit_xor, Nat.testBit_mod_two_pow,
    Nat.testBit_mul_pow_two, ← Nat.shiftRight_eq_div_pow, Nat.testBit_shiftRight]
  by_cases hj : j < 8
  · have : ¬ 8 ≤ j := by omega
    simp [hj, this]
  · have h8 : 8 ≤ j := by omega
    have e3 : 8 + (j - 8) = j := by omega
    simp [hj, h8, e3]

theorem refByte_low (c : Nat) : refByte c ((c &&& 0xff) % 256) = c >>> 8 := by
  unfold refByte
  rw [xor_low_byte, Nat.shiftRight_eq_div_pow]
  have e : 256 * (c / 256) = 2 * (2 * (2 * (2 * (2 * (2 * (2 * (2 * (c / 256)))))))) := by omega
  rw [e]
  simp only [Function.iterate_succ_apply, Function.iterate_zero_apply, refBit_double]

theorem refByte_self (x : Nat) : refByte x x = 0 := by
  unfold refByte
  rw [Nat.xor_self]
  decide

theorem foldl_refByte_zeros (k : Nat) : (List.replicate k 0).foldl refByte 0 = 0 := by
  induction k with
  | zero => rfl
  | succ k ih =>
    rw [List.replicate_succ, List.foldl_cons, refByte_self, ih]

/-! ## The trailing bytes of a closed frame -/

theorem bodyBytes_lt {frame : RTUFrame} (hw : frame.WellTyped) : ∀ b ∈ bodyBytes frame, b < 256 := by
  obtain ⟨h1, h2, -, -, h5⟩ := hw
  have hm : ∀ x : Nat, x % 256 < 256 := fun x => Nat.mod_lt _ (by norm_num)
  intro b hb
  unfold bodyBytes headerBytes at hb
  split at hb
  · simp only [List.cons_append, List.nil_append, List.mem_cons] at hb
    rcases hb with rfl | rfl | rfl | rfl | rfl | rfl | rfl | hb
    · exact h1
    · exact h2
    · exact hm _
    · exact hm _
    · exact hm _
    · exact hm _
    · exact hm _
    · exact h5 b (List.mem_of_mem_take hb)
  · simp only [List.mem_cons, List.mem_nil_iff, or_false] at hb
    rcases hb with rfl | rfl | rfl | rfl | rfl | rfl
    · exact h1
    · exact h2
    · exact hm _
    · exact hm _
    · exact hm _
    · exact hm _

theorem last_two_of_append (X : List Nat) (a b : Nat) :
    2 ≤ (X ++ [a, b]).length ∧ (X ++ [a, b]).take ((X ++ [a, b]).length - 2) = X ∧
      (X ++ [a, b])[(X ++ [a, b]).length - 2]? = some a ∧
      (X ++ [a, b])[(X ++ [a, b]).length - 1]? = some b := by
  have e1 : (X ++ [a, b]).length - 2 = X.length := by simp
  have e2 : (X ++ [a, b]).length - 1 = X.length + 1 := by simp
  rw [e1, e2]
  refine ⟨by simp, by simp, ?_, ?_⟩
  · rw [List.getElem?_append_right (Nat.le_refl _)]; simp
  · rw [List.getElem?_append_right (Nat.le_add_right _ _)]; simp

theorem low_byte_mod (c : Nat) : (c &&& 0xff) % 256 = c &&& 0xff := by
  apply Nat.mod_eq_of_lt
  exact Nat.lt_of_le_of_lt Nat.and_le_right (by norm_num)

theorem high_byte_mod {c : Nat} (h : c < 65536) : (c >>> 8) % 256 = c >>> 8 := by
  apply Nat.mod_eq_of_lt
  rw [Nat.shiftRight_eq_div_pow]
  omega

theorem closeFrame_tail (body : List Nat) (k : Nat) (hb : ∀ b ∈ body, b < 256) :
    2 ≤ (closeFrame body k).length ∧
      (closeFrame body k)[(closeFrame body k).length - 2]? =
        some (crc ((closeFrame body k).take ((closeFrame body k).length - 2)) &&& 0xff) ∧
      (closeFrame body k)[(closeFrame body k).length - 1]? =
        some (crc ((closeFrame body k).take ((closeFrame body k).length - 2)) >>> 8) := by
  have hc := crc_lt body hb
  have hhi := high_byte_mod hc
  have hlo := low_byte_mod (crc body)
  have hsh : crc body >>> 8 < 256 := by rw [Nat.shiftRight_eq_div_pow]; omega
  match k with
  | 0 =>
    have e : closeFrame body 0 = body ++ [(crc body &&& 0xff) % 256, (crc body >>> 8) % 256] := by
      simp [closeFrame]
    obtain ⟨h1, h2, h3, h4⟩ := last_two_of_append body ((crc body &&& 0xff) % 256)
      ((crc body >>> 8) % 256)
    rw [e, h2, h3, h4, hlo, hhi]
    exact ⟨by simp, rfl, rfl⟩
  | 1 =>
    have e : closeFrame body 1 =
        (body ++ [(crc body &&& 0xff) % 256]) ++ [(crc body >>> 8) % 256, 0] := by
      simp [closeFrame]
    obtain ⟨h1, h2, h3, h4⟩ := last_two_of_append (body ++ [(crc body &&& 0xff) % 256])
      ((crc body >>> 8) % 256) 0
    have hcrc : crc (body ++ [(crc body &&& 0xff) % 256]) = crc body >>> 8 := by
      rw [crc_append, List.foldl_cons, List.foldl_nil, refByte_low]
    rw [e, h2, h3, h4, hcrc, hhi]
    refine ⟨by simp, ?_, ?_⟩
    · congr 1
      have : (255 : Nat) = 2 ^ 8 - 1 := by norm_num
      rw [this, Nat.and_pow_two_sub_one_eq_mod]
      exact (Nat.mod_eq_of_lt hsh).symm
    · congr 1
      rw [Nat.shiftRight_eq_div_pow]
      omega
  | k + 2 =>
    have e : closeFrame body (k + 2) =
        (body ++ ([(crc body &&& 0xff) % 256, (crc body >>> 8) % 256] ++ List.replicate k 0))
          ++ [0, 0] := by
      have r : List.replicate (k + 2) 0 = List.replicate k 0 ++ [0, 0] := by
        rw [List.replicate_add]; rfl
      simp [closeFrame, r]
    obtain ⟨h1, h2, h3, h4⟩ := last_two_of_append
      (body ++ ([(crc body &&& 0xff) % 256, (crc body >>> 8) % 256] ++ List.replicate k 0)) 0 0
    have hcrc : crc (body ++ ([(crc body &&& 0xff) % 256, (crc body >>> 8) % 256]
        ++ List.replicate k 0)) = 0 := by
      rw [crc_append, List.foldl_append, List.foldl_cons, List.foldl_cons, List.foldl_nil,
        refByte_low, hhi, refByte_self, foldl_refByte_zeros]
    rw [e, h2, h3, h4, hcrc]
    exact ⟨h1, rfl, rfl⟩

theorem closeFrame_body (body : List Nat) (k : Nat) :
    (closeFrame body k).take body.length = body ∧
      (closeFrame body k)[body.length]? = some ((crc body &&& 0xff) % 256) ∧
      (closeFrame body k)[body.length + 1]? = some ((crc body >>> 8) % 256) ∧
      ∀ i, i < body.length → (closeFrame body k)[i]? = body[i]? := by
  unfold closeFrame
  refine ⟨by simp, ?_, ?_, fun i hi => ?_⟩
  · rw [List.getElem?_append_right (Nat.le_refl _)]; simp
  · rw [List.getElem?_append_right (Nat.le_add_right _ _)]; simp
  · rw [List.getElem?_append_left hi]

theorem bodyBytes_header (frame : RTUFrame) :
    ∃ rest, bodyBytes frame = headerBytes frame ++ rest := by
  unfold bodyBytes
  split
  · exact ⟨_, rfl⟩
  · exact ⟨[], by simp⟩

theorem word_bytes {w : Nat} (h : w < 65536) :
    (w >>> 8) % 256 * 256 + (w &&& 0xff) % 256 = w := by
  have e : (255 : Nat) = 2 ^ 8 - 1 := by norm_num
  rw [Nat.shiftRight_eq_div_pow, e, Nat.and_pow_two_sub_one_eq_mod]
  omega

/-! ## The claims -/

/-- C1: for the request with SlaveAddress 1, FunctionCode 3, StartRegister 0,
NumberOfRegisters 10 and empty Data, `GenerateRTUFrame` returns exactly the 8
bytes 01 03 00 00 00 0A C5 CD, whatever `RTU_FRAME_MAXSIZE` is, and the CRC of
01 03 00 00 00 0A is 0xCDC5. -/
theorem C1_reference_vector (M : Nat) :
    GenerateRTUFrame M ⟨1, 3, 0, 10, []⟩ = some [0x01, 0x03, 0x00, 0x00, 0x00, 0x0A, 0xC5, 0xCD] ∧
      crc [0x01, 0x03, 0x00, 0x00, 0x00, 0x0A] = 0xCDC5 := by
  constructor
  · rw [GenerateRTUFrame_empty M ⟨1, 3, 0, 10, []⟩ rfl]
    decide
  · decide

/-- C2: whenever `GenerateRTUFrame` returns a frame `f` for a well-typed
request, `f` has at least two bytes and its last two bytes are the CRC of the
bytes before them, low byte first: `f[len-2] = crc & 0xff`, `f[len-1] = crc >> 8`. -/
theorem C2_last_two_bytes_are_crc (M : Nat) (frame : RTUFrame) (f : List Nat)
    (hw : frame.WellTyped) (h : GenerateRTUFrame M frame = some f) :
    2 ≤ f.length ∧
      f[f.length - 2]? = some (crc (f.take (f.length - 2)) &&& 0xff) ∧
      f[f.length - 1]? = some (crc (f.take (f.length - 2)) >>> 8) := by
  obtain ⟨k, rfl, -, -⟩ := GenerateRTUFrame_shape h
  exact closeFrame_tail _ k (bodyBytes_lt hw)

/-- C2 at a write request whose buffer is one byte longer than the frame. -/
theorem C2_last_two_bytes_are_crc_witness :
    2 ≤ [1, 16, 0, 0, 0, 1, 2, 18, 52, 171, 39, 0].length ∧
      [1, 16, 0, 0, 0, 1, 2, 18, 52, 171, 39, 0][12 - 2]? =
        some (crc ([1, 16, 0, 0, 0, 1, 2, 18, 52, 171, 39, 0].take (12 - 2)) &&& 0xff) ∧
      [1, 16, 0, 0, 0, 1, 2, 18, 52, 171, 39, 0][12 - 1]? =
        some (crc ([1, 16, 0, 0, 0, 1, 2, 18, 52, 171, 39, 0].take (12 - 2)) >>> 8) :=
  C2_last_two_bytes_are_crc 12 ⟨1, 16, 0, 1, [0x12, 0x34]⟩
    [1, 16, 0, 0, 0, 1, 2, 18, 52, 171, 39, 0] (by decide) (by decide)

/-- C3: for every request whose Data is empty, `GenerateRTUFrame` returns a
frame, and the frame has exactly 8 bytes. -/
theorem C3_empty_data_eight_bytes (M : Nat) (frame : RTUFrame) (hd : frame.Data = []) :
    ∃ f, GenerateRTUFrame M frame = some f ∧ f.length = 8 := by
  refine ⟨_, GenerateRTUFrame_empty M frame (by simp [hd]), ?_⟩
  simp [closeFrame, bodyBytes, headerBytes, hd]

/-- C3 at a read request with the largest field values. -/
theorem C3_empty_data_eight_bytes_witness :
    ∃ f, GenerateRTUFrame 512 ⟨255, 255, 65535, 65535, []⟩ = some f ∧ f.length = 8 :=
  C3_empty_data_eight_bytes 512 ⟨255, 255, 65535, 65535, []⟩ rfl

/-- C4: the code at a write request of one register with `RTU_FRAME_MAXSIZE`
512: the frame returned has 512 bytes, not the `9 + 2*1 = 11` of the claim; the
11 bytes of the ADU are followed by 501 zero bytes. -/
theorem C4_frame_not_truncated :
    GenerateRTUFrame 512 ⟨1, 16, 0, 1, [0x12, 0x34]⟩ =
        some ([1, 16, 0, 0, 0, 1, 2, 0x12, 0x34, 171, 39] ++ List.replicate 501 0) ∧
      ([1, 16, 0, 0, 0, 1, 2, 0x12, 0x34, 171, 39] ++ List.replicate 501 0).length = 512 ∧
      512 ≠ 9 + 2 * 1 := by
  refine ⟨?_, by simp, by decide⟩
  have h := GenerateRTUFrame_payload 501 ⟨1, 16, 0, 1, [0x12, 0x34]⟩ (by decide) (by decide)
  have hb : closeFrame (bodyBytes ⟨1, 16, 0, 1, [0x12, 0x34]⟩) 0 =
      [1, 16, 0, 0, 0, 1, 2, 0x12, 0x34, 171, 39] := by decide
  rw [show (512 : Nat) = (⟨1, 16, 0, 1, [0x12, 0x34]⟩ : RTUFrame).NumberOfRegisters * 2 + 9 + 501
    from rfl, h, ← hb]
  simp [closeFrame]

/-- C5: header round trip. Whenever `GenerateRTUFrame` returns a frame `f` for
a well-typed request, `f[0]` is the slave address, `f[1]` the function code,
`f[2]*256 + f[3]` the start register and `f[4]*256 + f[5]` the number of
registers. -/
theorem C5_header_round_trip (M : Nat) (frame : RTUFrame) (f : List Nat)
    (hw : frame.WellTyped) (h : GenerateRTUFrame M frame = some f) :
    f[0]? = some frame.SlaveAddress ∧ f[1]? = some frame.FunctionCode ∧
      (∃ hi lo, f[2]? = some hi ∧ f[3]? = some lo ∧ hi < 256 ∧ lo < 256 ∧
        hi * 256 + lo = frame.StartRegister) ∧
      (∃ hi lo, f[4]? = some hi ∧ f[5]? = some lo ∧ hi < 256 ∧ lo < 256 ∧
        hi * 256 + lo = frame.NumberOfRegisters) := by
  obtain ⟨k, rfl, -, -⟩ := GenerateRTUFrame_shape h
  obtain ⟨rest, hrest⟩ := bodyBytes_header frame
  obtain ⟨-, -, h3, h4, -⟩ := hw
  have hm : ∀ x : Nat, x % 256 < 256 := fun x => Nat.mod_lt _ (by norm_num)
  rw [hrest]
  refine ⟨by simp [closeFrame, headerBytes], by simp [closeFrame, headerBytes],
    ⟨_, _, by simp [closeFrame, headerBytes], by simp [closeFrame, headerBytes],
      hm _, hm _, word_bytes h3⟩,
    ⟨_, _, by simp [closeFrame, headerBytes], by simp [closeFrame, headerBytes],
      hm _, hm _, word_bytes h4⟩⟩

/-- C5 at a write request with two-byte register fields. -/
theorem C5_header_round_trip_witness :
    [17, 16, 0x12, 0x34, 0, 1, 2, 0xAB, 0xCD, 227, 64, 0, 0][0]? = some 17 ∧
      [17, 16, 0x12, 0x34, 0, 1, 2, 0xAB, 0xCD, 227, 64, 0, 0][1]? = some 16 ∧
      (∃ hi lo, [17, 16, 0x12, 0x34, 0, 1, 2, 0xAB, 0xCD, 227, 64, 0, 0][2]? = some hi ∧
        [17, 16, 0x12, 0x34, 0, 1, 2, 0xAB, 0xCD, 227, 64, 0, 0][3]? = some lo ∧
        hi < 256 ∧ lo < 256 ∧ hi * 256 + lo = 0x1234) ∧
      (∃ hi lo, [17, 16, 0x12, 0x34, 0, 1, 2, 0xAB, 0xCD, 227, 64, 0, 0][4]? = some hi ∧
        [17, 16, 0x12, 0x34, 0, 1, 2, 0xAB, 0xCD, 227, 64, 0, 0][5]? = some lo ∧
        hi < 256 ∧ lo < 256 ∧ hi * 256 + lo = 1) :=
  C5_header_round_trip 13 ⟨17, 16, 0x1234, 1, [0xAB, 0xCD]⟩
    [17, 16, 0x12, 0x34, 0, 1, 2, 0xAB, 0xCD, 227, 64, 0, 0] (by decide) (by decide)

/-- C6: for every byte sequence `crc` equals the reference bit-reflected
CRC-16/Modbus, the left fold of `refByte` from 0xFFFF; and `crc (a ++ b)` is
that fold continued over `b` from the state `crc a`. -/
theorem C6_crc_is_reference_fold :
    (∀ data : List Nat, crc data = refCRC data) ∧
      (∀ data : List Nat, crc data = data.foldl (fun acc b => refBit^[8] (acc ^^^ b)) 0xFFFF) ∧
      ∀ a b : List Nat, crc (a ++ b) = b.foldl (fun acc x => refBit^[8] (acc ^^^ x)) (crc a) :=
  ⟨crc_eq_refCRC, crc_eq_refCRC, crc_append⟩

/-- C7: the CRC of the empty byte sequence is 0xFFFF. -/
theorem C7_crc_empty : crc [] = 0xFFFF := rfl

/-- C8: for every well-typed request with non-empty Data of length
`n = 2*NumberOfRegisters` and `n + 9 <= RTU_FRAME_MAXSIZE`, `GenerateRTUFrame`
returns a frame with the byte count `n` truncated to 8 bits at offset 6, the
bytes of Data in order at offsets `7 .. 7+n-1`, and the CRC of bytes
`0 .. 7+n-1` at offsets `7+n` (low byte) and `8+n` (high byte). -/
theorem C8_payload_layout (M : Nat) (frame : RTUFrame) (hw : frame.WellTyped)
    (hd : frame.Data ≠ []) (hlen : frame.Data.length = 2 * frame.NumberOfRegisters)
    (hfit : 2 * frame.NumberOfRegisters + 9 ≤ M) :
    ∃ f, GenerateRTUFrame M frame = some f ∧
      f[6]? = some (2 * frame.NumberOfRegisters % 256) ∧
      (∀ i, i < 2 * frame.NumberOfRegisters → f[7 + i]? = frame.Data[i]?) ∧
      f[7 + 2 * frame.NumberOfRegisters]? =
        some (crc (f.take (7 + 2 * frame.NumberOfRegisters)) &&& 0xff) ∧
      f[8 + 2 * frame.NumberOfRegisters]? =
        some (crc (f.take (7 + 2 * frame.NumberOfRegisters)) >>> 8) := by
  have hpos : 0 < frame.Data.length := List.length_pos.2 hd
  have hc : frame.NumberOfRegisters * 2 = 2 * frame.NumberOfRegisters := Nat.mul_comm _ _
  obtain ⟨k, rfl⟩ : ∃ k, M = frame.NumberOfRegisters * 2 + 9 + k :=
    ⟨M - (frame.NumberOfRegisters * 2 + 9), by omega⟩
  refine ⟨_, GenerateRTUFrame_payload k frame hpos (by omega), ?_⟩
  have hbody : bodyBytes frame =
      headerBytes frame ++ (2 * frame.NumberOfRegisters % 256) :: frame.Data := by
    unfold bodyBytes
    rw [if_pos hpos, hc, ← hlen, List.take_length]
  have hl : (bodyBytes frame).length = 7 + 2 * frame.NumberOfRegisters := by
    rw [hbody]; simp [headerBytes, hlen]; omega
  obtain ⟨h1, h2, h3, h4⟩ := closeFrame_body (bodyBytes frame) k
  have hcrc := crc_lt _ (bodyBytes_lt hw)
  rw [hl] at h1 h2 h3 h4
  refine ⟨?_, fun i hi => ?_, ?_, ?_⟩
  · rw [h4 6 (by omega), hbody]
    simp [headerBytes]
  · rw [h4 (7 + i) (by omega), hbody, show 7 + i = i + 1 + 1 + 1 + 1 + 1 + 1 + 1 by omega]
    simp only [headerBytes, List.cons_append, List.nil_append, List.getElem?_cons_succ]
  · rw [h1, h2, low_byte_mod]
  · rw [h1, show 8 + 2 * frame.NumberOfRegisters = 7 + 2 * frame.NumberOfRegisters + 1 by omega,
      h3, high_byte_mod hcrc]

/-- C8 at a write request of two registers in a 16-byte buffer. -/
theorem C8_payload_layout_witness :
    ∃ f, GenerateRTUFrame 16 ⟨1, 16, 0, 2, [0, 10, 1, 2]⟩ = some f ∧
      f[6]? = some (2 * 2 % 256) ∧
      (∀ i, i < 2 * 2 → f[7 + i]? = [0, 10, 1, 2][i]?) ∧
      f[7 + 2 * 2]? = some (crc (f.take (7 + 2 * 2)) &&& 0xff) ∧
      f[8 + 2 * 2]? = some (crc (f.take (7 + 2 * 2)) >>> 8) :=
  C8_payload_layout 16 ⟨1, 16, 0, 2, [0, 10, 1, 2]⟩ (by decide) (by decide) (by decide)
    (by decide)

/-- C9: when the transport's write of the ADU returns an error, `Read` returns
an empty byte sequence with the error
`MODBUS_EXCEPTIONS[EXCEPTION_GATEWAY_TARGET_DEVICE_FAILED_TO_RESPOND]`, and the
write is the only call it made: the transport's read is never invoked, and the
transport is left in the state the write put it in. -/
theorem C9_write_failure {σ ε : Type} (k : Consts ε) (frame : RTUFrame) (fd : Transport σ)
    (s : σ) (adu : List Nat) (hg : GenerateRTUFrame k.RTU_FRAME_MAXSIZE frame = some adu)
    (hwr : (fd.Write s adu).2 = true) :
    ∃ o, Read k frame fd s = some o ∧ o.bytes = [] ∧
      o.err = some (k.MODBUS_EXCEPTIONS k.EXCEPTION_GATEWAY_TARGET_DEVICE_FAILED_TO_RESPOND) ∧
      o.calls = [Call.fdWrite adu] ∧ (∀ c, Call.fdRead c ∉ o.calls) ∧
      o.final = (fd.Write s adu).1 := by
  unfold Read
  rw [hg]
  simp only [Option.bind_eq_bind, Option.some_bind, hwr, if_true]
  exact ⟨_, rfl, rfl, rfl, rfl, by simp, rfl⟩

/-- C9 at a read request over a transport whose writes always fail; its state
counts 1 for a write and 10 for a read. -/
theorem C9_write_failure_witness :
    ∃ o, Read (⟨512, 260, 11, fun n => n⟩ : Consts Nat) ⟨1, 3, 0, 10, []⟩
        (⟨fun s _ => (s + 1, true), fun s _ => (s + 10, ⟨[], false⟩)⟩ : Transport Nat) 0
          = some o ∧
      o.bytes = [] ∧ o.err = some 11 ∧
      o.calls = [Call.fdWrite [1, 3, 0, 0, 0, 10, 0xC5, 0xCD]] ∧
      (∀ c, Call.fdRead c ∉ o.calls) ∧ o.final = 1 :=
  C9_write_failure (⟨512, 260, 11, fun n => n⟩ : Consts Nat) ⟨1, 3, 0, 10, []⟩
    (⟨fun s _ => (s + 1, true), fun s _ => (s + 10, ⟨[], false⟩)⟩ : Transport Nat) 0
    [1, 3, 0, 0, 0, 10, 0xC5, 0xCD] (by decide) rfl

/-- C10: when the write succeeds and the transport's read returns an error,
`Read` returns an empty byte sequence, none of the receive buffer, with the same
error as for a write failure. -/
theorem C10_read_failure {σ ε : Type} (k : Consts ε) (frame : RTUFrame) (fd : Transport σ)
    (s : σ) (adu : List Nat) (hg : GenerateRTUFrame k.RTU_FRAME_MAXSIZE frame = some adu)
    (hwr : (fd.Write s adu).2 = false)
    (hrd : (fd.Read (fd.Write s adu).1 k.TCP_FRAME_MAXSIZE).2.failed = true) :
    ∃ o, Read k frame fd s = some o ∧ o.bytes = [] ∧
      o.err = some (k.MODBUS_EXCEPTIONS k.EXCEPTION_GATEWAY_TARGET_DEVICE_FAILED_TO_RESPOND) ∧
      o.calls = [Call.fdWrite adu, Call.sleep 300, Call.fdRead k.TCP_FRAME_MAXSIZE] := by
  unfold Read
  rw [hg]
  simp only [Option.bind_eq_bind, Option.some_bind, hwr, hrd, if_true]
  exact ⟨_, rfl, rfl, rfl, rfl⟩

/-- C10 at a read request over a transport whose read stores three bytes and
then fails. -/
theorem C10_read_failure_witness :
    ∃ o, Read (⟨512, 260, 11, fun n => n⟩ : Consts Nat) ⟨1, 3, 0, 10, []⟩
        (⟨fun s _ => (s, false), fun s _ => (s, ⟨[1, 3, 20], true⟩)⟩ : Transport Unit) ()
          = some o ∧
      o.bytes = [] ∧ o.err = some 11 ∧
      o.calls = [Call.fdWrite [1, 3, 0, 0, 0, 10, 0xC5, 0xCD], Call.sleep 300, Call.fdRead 260] :=
  C10_read_failure (⟨512, 260, 11, fun n => n⟩ : Consts Nat) ⟨1, 3, 0, 10, []⟩
    (⟨fun s _ => (s, false), fun s _ => (s, ⟨[1, 3, 20], true⟩)⟩ : Transport Unit) ()
    [1, 3, 0, 0, 0, 10, 0xC5, 0xCD] (by decide) rfl rfl

/-! ## The receive buffer and a successful exchange -/

theorem fillBuffer_length (capacity : Nat) (bytes : List Nat) :
    (fillBuffer capacity bytes).length = capacity := by
  unfold fillBuffer
  rw [List.length_take, List.length_append, List.length_replicate]
  omega

theorem fillBuffer_eq {capacity : Nat} {bytes : List Nat} (h : bytes.length ≤ capacity) :
    fillBuffer capacity bytes = bytes ++ List.replicate (capacity - bytes.length) 0 := by
  unfold fillBuffer
  apply List.take_of_length_le
  rw [List.length_append, List.length_replicate]
  omega

theorem Read_success {σ ε : Type} (k : Consts ε) (frame : RTUFrame) (fd : Transport σ)
    (s : σ) (adu : List Nat) (hg : GenerateRTUFrame k.RTU_FRAME_MAXSIZE frame = some adu)
    (hwr : (fd.Write s adu).2 = false)
    (hrd : (fd.Read (fd.Write s adu).1 k.TCP_FRAME_MAXSIZE).2.failed = false) :
    Read k frame fd s = some
      ⟨fillBuffer k.TCP_FRAME_MAXSIZE (fd.Read (fd.Write s adu).1 k.TCP_FRAME_MAXSIZE).2.bytes,
        none, [Call.fdWrite adu, Call.sleep 300, Call.fdRead k.TCP_FRAME_MAXSIZE],
        (fd.Read (fd.Write s adu).1 k.TCP_FRAME_MAXSIZE).1⟩ := by
  unfold Read
  rw [hg]
  simp only [Option.bind_eq_bind, Option.some_bind, hwr, hrd]
  rfl

/-- C11: the code at a read request whose response `01 03 02 00 0A 38 44` has
a corrupted trailing CRC (the CRC of `01 03 02 00 0A` is 0x4338, low byte 38,
high byte 43): `Read` returns the response with a nil error. -/
theorem C11_corrupted_crc_returned :
    (Read (⟨512, 260, 11, fun n => n⟩ : Consts Nat) ⟨1, 3, 0, 1, []⟩
        (⟨fun s _ => (s, false), fun s _ => (s, ⟨[1, 3, 2, 0, 10, 0x38, 0x44], false⟩)⟩ :
          Transport Unit) ()).map (fun o => (o.err, o.bytes.take 7)) =
        some (none, [1, 3, 2, 0, 10, 0x38, 0x44]) ∧
      crc [1, 3, 2, 0, 10] &&& 0xff = 0x38 ∧ crc [1, 3, 2, 0, 10] >>> 8 = 0x43 := by
  decide

/-- C12: the code at a read request with function code 3 whose response
`01 83 02 C0 F1` echoes the slave address, carries function code `3 | 0x80` and
exception byte 2: `Read` returns the response with a nil error. -/
theorem C12_exception_response_returned :
    (Read (⟨512, 260, 11, fun n => n⟩ : Consts Nat) ⟨1, 3, 0, 1, []⟩
        (⟨fun s _ => (s, false), fun s _ => (s, ⟨[1, 0x83, 2, 0xC0, 0xF1], false⟩)⟩ :
          Transport Unit) ()).map (fun o => (o.err, o.bytes.take 5)) =
        some (none, [1, 3 ||| 0x80, 2, 0xC0, 0xF1]) := by
  decide

/-- C13 fails as stated: a successful read that delivers the 7 bytes
`01 03 02 00 0A 38 43` makes `Read` return 260 bytes (`TCP_FRAME_MAXSIZE`), not
the 7 bytes read. -/
theorem C13_not_the_bytes_read :
    ∃ o, Read (⟨512, 260, 11, fun n => n⟩ : Consts Nat) ⟨1, 3, 0, 1, []⟩
        (⟨fun s _ => (s, false), fun s _ => (s, ⟨[1, 3, 2, 0, 10, 0x38, 0x43], false⟩)⟩ :
          Transport Unit) () = some o ∧
      o.err = none ∧ o.bytes.length = 260 ∧ o.bytes.length ≠ 7 ∧
      o.bytes ≠ [1, 3, 2, 0, 10, 0x38, 0x43] := by
  refine ⟨_, Read_success _ _ _ _ [1, 3, 0, 0, 0, 1, 132, 10] (by decide) rfl rfl, rfl, ?_, ?_, ?_⟩
  · exact fillBuffer_length _ _
  · rw [fillBuffer_length]; decide
  · intro h
    have hl := congrArg List.length h
    rw [fillBuffer_length] at hl
    exact absurd hl (by decide)

/-- C13 as amended: for every request and every successful read that delivers
`n` bytes (`n` at most `TCP_FRAME_MAXSIZE`), `Read` returns with a nil error the
whole receive buffer: exactly `TCP_FRAME_MAXSIZE` bytes, of which the first `n`
are the bytes read. -/
theorem C13_returns_whole_buffer {σ ε : Type} (k : Consts ε) (frame : RTUFrame)
    (fd : Transport σ) (s : σ) (adu : List Nat)
    (hg : GenerateRTUFrame k.RTU_FRAME_MAXSIZE frame = some adu)
    (hwr : (fd.Write s adu).2 = false)
    (hrd : (fd.Read (fd.Write s adu).1 k.TCP_FRAME_MAXSIZE).2.failed = false)
    (hn : (fd.Read (fd.Write s adu).1 k.TCP_FRAME_MAXSIZE).2.bytes.length ≤ k.TCP_FRAME_MAXSIZE) :
    ∃ o, Read k frame fd s = some o ∧ o.err = none ∧
      o.bytes.length = k.TCP_FRAME_MAXSIZE ∧
      o.bytes.take (fd.Read (fd.Write s adu).1 k.TCP_FRAME_MAXSIZE).2.bytes.length =
        (fd.Read (fd.Write s adu).1 k.TCP_FRAME_MAXSIZE).2.bytes := by
  refine ⟨_, Read_success k frame fd s adu hg hwr hrd, rfl, fillBuffer_length _ _, ?_⟩
  simp only [fillBuffer_eq hn]
  simp

/-- C13 as amended, at a read request answered by 7 bytes. -/
theorem C13_returns_whole_buffer_witness :
    ∃ o, Read (⟨512, 260, 11, fun n => n⟩ : Consts Nat) ⟨1, 3, 0, 1, []⟩
        (⟨fun s _ => (s, false), fun s _ => (s, ⟨[1, 3, 2, 0, 10, 0x38, 0x43], false⟩)⟩ :
          Transport Unit) () = some o ∧ o.err = none ∧
      o.bytes.length = 260 ∧
      o.bytes.take [1, 3, 2, 0, 10, 0x38, 0x43].length = [1, 3, 2, 0, 10, 0x38, 0x43] :=
  C13_returns_whole_buffer (⟨512, 260, 11, fun n => n⟩ : Consts Nat) ⟨1, 3, 0, 1, []⟩
    (⟨fun s _ => (s, false), fun s _ => (s, ⟨[1, 3, 2, 0, 10, 0x38, 0x43], false⟩)⟩ :
      Transport Unit) () [1, 3, 0, 0, 0, 1, 132, 10] (by decide) rfl rfl (by decide)

/-! ## When `GenerateRTUFrame` returns, and what it returns on a payload -/

theorem GenerateRTUFrame_none {M : Nat} {frame : RTUFrame} (hd : 0 < frame.Data.length)
    (h : ¬ (frame.NumberOfRegisters * 2 ≤ frame.Data.length ∧
      frame.NumberOfRegisters * 2 + 9 ≤ M)) :
    GenerateRTUFrame M frame = none := by
  cases hg : GenerateRTUFrame M frame with
  | none => rfl
  | some f => exact absurd (GenerateRTUFrame_some_bounds hg hd) h

theorem GenerateRTUFrame_isSome_iff (M : Nat) (frame : RTUFrame) :
    (GenerateRTUFrame M frame).isSome = true ↔
      frame.Data = [] ∨ (2 * frame.NumberOfRegisters ≤ frame.Data.length ∧
        2 * frame.NumberOfRegisters + 9 ≤ M) := by
  rw [Nat.mul_comm 2 frame.NumberOfRegisters]
  rcases Nat.eq_zero_or_pos frame.Data.length with hd | hd
  · rw [GenerateRTUFrame_empty M frame hd]
    simp [List.length_eq_zero.1 hd]
  · have hne : frame.Data ≠ [] := List.length_pos.1 hd
    by_cases hc : frame.NumberOfRegisters * 2 ≤ frame.Data.length ∧
        frame.NumberOfRegisters * 2 + 9 ≤ M
    · obtain ⟨k, rfl⟩ : ∃ k, M = frame.NumberOfRegisters * 2 + 9 + k :=
        ⟨M - (frame.NumberOfRegisters * 2 + 9), by omega⟩
      rw [GenerateRTUFrame_payload k frame hd hc.1]
      simp [hc.1]
    · rw [GenerateRTUFrame_none hd hc]
      simp [hne, hc]

theorem GenerateRTUFrame_layout (M : Nat) (frame : RTUFrame) (hd : frame.Data ≠ [])
    (hn : 2 * frame.NumberOfRegisters ≤ frame.Data.length)
    (hfit : 2 * frame.NumberOfRegisters + 9 ≤ M) :
    ∃ f, GenerateRTUFrame M frame = some f ∧ f.length = M ∧
      f[6]? = some (2 * frame.NumberOfRegisters % 256) ∧
      (∀ i, i < 2 * frame.NumberOfRegisters → f[7 + i]? = frame.Data[i]?) ∧
      f[7 + 2 * frame.NumberOfRegisters]? =
        some ((crc (f.take (7 + 2 * frame.NumberOfRegisters)) &&& 0xff) % 256) ∧
      f[8 + 2 * frame.NumberOfRegisters]? =
        some ((crc (f.take (7 + 2 * frame.NumberOfRegisters)) >>> 8) % 256) ∧
      ∀ i, 9 + 2 * frame.NumberOfRegisters ≤ i → i < M → f[i]? = some 0 := by
  have hpos : 0 < frame.Data.length := List.length_pos.2 hd
  have hc : frame.NumberOfRegisters * 2 = 2 * frame.NumberOfRegisters := Nat.mul_comm _ _
  obtain ⟨k, rfl⟩ : ∃ k, M = frame.NumberOfRegisters * 2 + 9 + k :=
    ⟨M - (frame.NumberOfRegisters * 2 + 9), by omega⟩
  refine ⟨_, GenerateRTUFrame_payload k frame hpos (by omega), ?_⟩
  have hbody : bodyBytes frame = headerBytes frame ++
      (2 * frame.NumberOfRegisters % 256) :: frame.Data.take (2 * frame.NumberOfRegisters) := by
    unfold bodyBytes
    rw [if_pos hpos, hc]
  have hl : (bodyBytes frame).length = 7 + 2 * frame.NumberOfRegisters := by
    rw [hbody]; simp [headerBytes, List.length_take, hn]; omega
  obtain ⟨h1, h2, h3, h4⟩ := closeFrame_body (bodyBytes frame) k
  rw [hl] at h1 h2 h3 h4
  refine ⟨?_, ?_, fun i hi => ?_, ?_, ?_, fun i h5 h6 => ?_⟩
  · simp only [closeFrame, List.length_append, List.length_cons, List.length_replicate, hl]
    omega
  · rw [h4 6 (by omega), hbody]
    simp [headerBytes]
  · rw [h4 (7 + i) (by omega), hbody, show 7 + i = i + 1 + 1 + 1 + 1 + 1 + 1 + 1 by omega]
    simp only [headerBytes, List.cons_append, List.nil_append, List.getElem?_cons_succ]
    rw [List.getElem?_take_of_lt hi]
  · rw [h1, h2]
  · rw [h1, show 8 + 2 * frame.NumberOfRegisters = 7 + 2 * frame.NumberOfRegisters + 1 by omega,
      h3]
  · unfold closeFrame
    have e : i = (bodyBytes frame).length + (i - (bodyBytes frame).length - 2 + 1 + 1) := by
      omega
    rw [List.getElem?_append_right (by omega), e, Nat.add_sub_cancel_left]
    simp only [List.getElem?_cons_succ]
    rw [List.getElem?_replicate, if_pos (by omega)]

/-- C14 fails as stated: Data has 3 bytes while `2*NumberOfRegisters` is 2, and
`GenerateRTUFrame` returns a frame all the same, built from the first two bytes
of Data. -/
theorem C14_overlong_payload_accepted :
    ([0x12, 0x34, 0x56] : List Nat) ≠ [] ∧ ([0x12, 0x34, 0x56] : List Nat).length ≠ 2 * 1 ∧
      GenerateRTUFrame 16 ⟨1, 16, 0, 1, [0x12, 0x34, 0x56]⟩ =
        some [1, 16, 0, 0, 0, 1, 2, 0x12, 0x34, 171, 39, 0, 0, 0, 0, 0] := by
  decide

/-- C14 as amended: for every well-typed request whose Data is non-empty and of
a length other than `2*NumberOfRegisters`: when Data is shorter,
`GenerateRTUFrame` produces no frame (it stops at an out-of-range index); when
Data is longer and `2*NumberOfRegisters + 9 <= RTU_FRAME_MAXSIZE`, it returns a
frame that has at offset 6 the value `2*NumberOfRegisters` truncated to 8 bits
(`2*NumberOfRegisters mod 256`), at offsets `7 .. 7+2*NumberOfRegisters-1` the
first `2*NumberOfRegisters` bytes of Data, and right after them the CRC of the
bytes before it, low byte then high byte. -/
theorem C14_length_mismatch (M : Nat) (frame : RTUFrame) (hw : frame.WellTyped)
    (hd : frame.Data ≠ []) :
    (frame.Data.length < 2 * frame.NumberOfRegisters → GenerateRTUFrame M frame = none) ∧
      (2 * frame.NumberOfRegisters < frame.Data.length →
        2 * frame.NumberOfRegisters + 9 ≤ M →
        ∃ f, GenerateRTUFrame M frame = some f ∧
          f[6]? = some (2 * frame.NumberOfRegisters % 256) ∧
          (∀ i, i < 2 * frame.NumberOfRegisters → f[7 + i]? = frame.Data[i]?) ∧
          f[7 + 2 * frame.NumberOfRegisters]? =
            some (crc (f.take (7 + 2 * frame.NumberOfRegisters)) &&& 0xff) ∧
          f[8 + 2 * frame.NumberOfRegisters]? =
            some (crc (f.take (7 + 2 * frame.NumberOfRegisters)) >>> 8)) := by
  have hpos : 0 < frame.Data.length := List.length_pos.2 hd
  constructor
  · intro hlt
    exact GenerateRTUFrame_none hpos (by omega)
  · intro hgt hfit
    obtain ⟨f, h1, -, h3, h4, h5, h6, -⟩ :=
      GenerateRTUFrame_layout M frame hd (by omega) hfit
    have hlt : crc (f.take (7 + 2 * frame.NumberOfRegisters)) < 65536 := by
      obtain ⟨k, rfl, -, -⟩ := GenerateRTUFrame_shape h1
      apply crc_lt
      intro b hb
      have hmem := List.mem_of_mem_take hb
      unfold closeFrame at hmem
      have hm : ∀ x : Nat, x % 256 < 256 := fun x => Nat.mod_lt _ (by norm_num)
      rcases List.mem_append.1 hmem with h | h
      · exact bodyBytes_lt hw b h
      · rcases List.mem_cons.1 h with rfl | h
        · exact hm _
        · rcases List.mem_cons.1 h with rfl | h
          · exact hm _
          · rw [List.eq_of_mem_replicate h]
            norm_num
    rw [low_byte_mod] at h5
    rw [high_byte_mod hlt] at h6
    exact ⟨f, h1, h3, h4, h5, h6⟩

/-- C14 as amended, at two requests of 128 registers (byte count 256, stored as
0): one with 3 bytes of Data, which is too short, and one with 257 bytes, which
is too long. -/
theorem C14_length_mismatch_witness :
    GenerateRTUFrame 512 ⟨1, 16, 0, 128, [0x12, 0x34, 0x56]⟩ = none ∧
      ∃ f, GenerateRTUFrame 512 ⟨1, 16, 0, 128, List.replicate 257 7⟩ = some f ∧
        f[6]? = some 0 ∧
        (∀ i, i < 2 * 128 → f[7 + i]? = (List.replicate 257 7)[i]?) ∧
        f[7 + 2 * 128]? = some (crc (f.take (7 + 2 * 128)) &&& 0xff) ∧
        f[8 + 2 * 128]? = some (crc (f.take (7 + 2 * 128)) >>> 8) :=
  ⟨(C14_length_mismatch 512 ⟨1, 16, 0, 128, [0x12, 0x34, 0x56]⟩ (by decide) (by decide)).1
      (by decide),
    (C14_length_mismatch 512 ⟨1, 16, 0, 128, List.replicate 257 7⟩ (by decide) (by decide)).2
      (by decide) (by decide)⟩

/-- C15: `GenerateRTUFrame` completes without an out-of-range index if and only
if Data is empty, or `2*NumberOfRegisters <= len(Data)` and
`2*NumberOfRegisters + 9 <= RTU_FRAME_MAXSIZE`; this holds for every value of
`RTU_FRAME_MAXSIZE`, so also for those that are at least 9.  In particular it
completes on every request with empty Data, whatever the other fields, and stops
on every non-empty Data shorter than `2*NumberOfRegisters`. -/
theorem C15_completes_iff (M : Nat) (frame : RTUFrame) :
    ((GenerateRTUFrame M frame).isSome = true ↔
        frame.Data = [] ∨ (2 * frame.NumberOfRegisters ≤ frame.Data.length ∧
          2 * frame.NumberOfRegisters + 9 ≤ M)) ∧
      (frame.Data = [] → (GenerateRTUFrame M frame).isSome = true) ∧
      (frame.Data ≠ [] → frame.Data.length < 2 * frame.NumberOfRegisters →
        GenerateRTUFrame M frame = none) := by
  refine ⟨GenerateRTUFrame_isSome_iff M frame, fun h => ?_, fun hd hlt => ?_⟩
  · exact (GenerateRTUFrame_isSome_iff M frame).2 (Or.inl h)
  · exact GenerateRTUFrame_none (List.length_pos.2 hd) (by omega)

/-- C15 at a request whose Data is one byte short. -/
theorem C15_completes_iff_witness :
    ((GenerateRTUFrame 512 ⟨1, 16, 0, 2, [0x12, 0x34, 0x56]⟩).isSome = true ↔
        ([0x12, 0x34, 0x56] : List Nat) = [] ∨
          (2 * 2 ≤ ([0x12, 0x34, 0x56] : List Nat).length ∧ 2 * 2 + 9 ≤ 512)) ∧
      (([0x12, 0x34, 0x56] : List Nat) = [] →
        (GenerateRTUFrame 512 ⟨1, 16, 0, 2, [0x12, 0x34, 0x56]⟩).isSome = true) ∧
      (([0x12, 0x34, 0x56] : List Nat) ≠ [] → ([0x12, 0x34, 0x56] : List Nat).length < 2 * 2 →
        GenerateRTUFrame 512 ⟨1, 16, 0, 2, [0x12, 0x34, 0x56]⟩ = none) :=
  C15_completes_iff 512 ⟨1, 16, 0, 2, [0x12, 0x34, 0x56]⟩

/-- C18: for every request with non-empty Data, `2*NumberOfRegisters <= len(Data)`
and `2*NumberOfRegisters + 9 <= RTU_FRAME_MAXSIZE`, `GenerateRTUFrame` returns a
slice of exactly `RTU_FRAME_MAXSIZE` bytes, and every byte at offset
`9 + 2*NumberOfRegisters` or beyond is zero. -/
theorem C18_full_buffer_returned (M : Nat) (frame : RTUFrame) (hd : frame.Data ≠ [])
    (hn : 2 * frame.NumberOfRegisters ≤ frame.Data.length)
    (hfit : 2 * frame.NumberOfRegisters + 9 ≤ M) :
    ∃ f, GenerateRTUFrame M frame = some f ∧ f.length = M ∧
      ∀ i, 9 + 2 * frame.NumberOfRegisters ≤ i → i < M → f[i]? = some 0 := by
  obtain ⟨f, h1, h2, -, -, -, -, h7⟩ := GenerateRTUFrame_layout M frame hd hn hfit
  exact ⟨f, h1, h2, h7⟩

/-- C18 at a write request of one register with a 512-byte buffer. -/
theorem C18_full_buffer_returned_witness :
    ∃ f, GenerateRTUFrame 512 ⟨1, 16, 0, 1, [0x12, 0x34]⟩ = some f ∧ f.length = 512 ∧
      ∀ i, 9 + 2 * 1 ≤ i → i < 512 → f[i]? = some 0 :=
  C18_full_buffer_returned 512 ⟨1, 16, 0, 1, [0x12, 0x34]⟩ (by decide) (by decide) (by decide)

/-! ## The accumulator update is a bijection on 16-bit states -/

theorem xor_poly_ge {x : Nat} (h : x < 32768) : 32768 ≤ x ^^^ 0xA001 := by
  have hb : (x ^^^ 0xA001).testBit 15 = true := by
    rw [Nat.testBit_xor, Nat.testBit_lt_two_pow (i := 15) (by norm_num; exact h)]
    decide
  exact Nat.testBit_implies_ge hb

theorem refBit_injOn : Set.InjOn refBit {s | s < 65536} := by
  intro c hc d hd h
  simp only [Set.mem_setOf_eq] at hc hd
  rw [refBit_eq, refBit_eq] at h
  have hc2 : c / 2 < 32768 := by omega
  have hd2 : d / 2 < 32768 := by omega
  split at h <;> split at h
  · have := Nat.xor_left_injective h
    omega
  · have := xor_poly_ge hc2
    omega
  · have := xor_poly_ge hd2
    omega
  · omega

theorem refBit_bijOn : Set.BijOn refBit {s | s < 65536} {s | s < 65536} :=
  ((Set.finite_lt_nat 65536).injOn_iff_bijOn_of_mapsTo (fun _ h => refBit_lt h)).1 refBit_injOn

theorem xor_bijOn {x : Nat} (hx : x < 65536) :
    Set.BijOn (fun s => s ^^^ x) {s | s < 65536} {s | s < 65536} :=
  ((Set.finite_lt_nat 65536).injOn_iff_bijOn_of_mapsTo
    (fun _ h => Nat.xor_lt_two_pow (n := 16) h hx)).1 (Nat.xor_left_injective.injOn)

theorem refByte_bijOn {x : Nat} (hx : x < 256) :
    Set.BijOn (fun s => refByte s x) {s | s < 65536} {s | s < 65536} :=
  (refBit_bijOn.iterate 8).comp (xor_bijOn (by omega))

theorem refByte_ne_of_state {s t x : Nat} (hs : s < 65536) (ht : t < 65536) (hx : x < 256)
    (h : s ≠ t) : refByte s x ≠ refByte t x :=
  fun e => h ((refByte_bijOn hx).injOn hs ht e)

theorem refByte_ne_of_byte {s x y : Nat} (hs : s < 65536) (hx : x < 256) (hy : y < 256)
    (h : x ≠ y) : refByte s x ≠ refByte s y := by
  intro e
  have hsx : s ^^^ x < 65536 := Nat.xor_lt_two_pow (n := 16) hs (by omega)
  have hsy : s ^^^ y < 65536 := Nat.xor_lt_two_pow (n := 16) hs (by omega)
  have := (refBit_bijOn.iterate 8).injOn hsx hsy e
  exact h (Nat.xor_right_injective this)

theorem foldl_refByte_ne (l : List Nat) (hl : ∀ b ∈ l, b < 256) :
    ∀ s t, s < 65536 → t < 65536 → s ≠ t → l.foldl refByte s ≠ l.foldl refByte t := by
  induction l with
  | nil => intro s t _ _ h; exact h
  | cons b l ih =>
    intro s t hs ht h
    have hb := hl b (List.mem_cons_self _ _)
    rw [List.foldl_cons, List.foldl_cons]
    exact ih (fun x hx => hl x (List.mem_cons_of_mem _ hx)) _ _ (refByte_lt hs hb)
      (refByte_lt ht hb) (refByte_ne_of_state hs ht hb h)

theorem split_at_index (a : List Nat) (i : Nat) (hi : i < a.length) :
    a = a.take i ++ a[i] :: a.drop (i + 1) := by
  rw [← List.drop_eq_getElem_cons hi, List.take_append_drop]

theorem split_single_difference (a b : List Nat) (hlen : a.length = b.length) (i : Nat)
    (hi : i < a.length) (hsame : ∀ j, j ≠ i → a[j]? = b[j]?) :
    ∃ p t x y, a = p ++ x :: t ∧ b = p ++ y :: t ∧ a[i]? = some x ∧ b[i]? = some y := by
  have hib : i < b.length := hlen ▸ hi
  have hp : b.take i = a.take i := by
    apply List.ext_getElem?
    intro j
    by_cases hj : j < i
    · rw [List.getElem?_take_of_lt hj, List.getElem?_take_of_lt hj]
      exact (hsame j (by omega)).symm
    · rw [List.getElem?_eq_none (by simp; omega), List.getElem?_eq_none (by simp; omega)]
  have ht : b.drop (i + 1) = a.drop (i + 1) := by
    apply List.ext_getElem?
    intro j
    rw [List.getElem?_drop, List.getElem?_drop]
    exact (hsame (i + 1 + j) (by omega)).symm
  refine ⟨a.take i, a.drop (i + 1), a[i], b[i], split_at_index a i hi, ?_,
    List.getElem?_eq_getElem hi, List.getElem?_eq_getElem hib⟩
  rw [← hp, ← ht]
  exact split_at_index b i hib

/-- C16: CRC residue. For every byte sequence `m` with `c = crc(m)`, the two
values `c & 0xff` and `c >> 8` are bytes and `crc(m ++ [c & 0xff, c >> 8]) = 0`;
and for every well-typed request with empty Data, `GenerateRTUFrame` returns a
frame whose CRC, taken over the whole frame, is 0. -/
theorem C16_crc_residue (m : List Nat) (hm : ∀ b ∈ m, b < 256) (M : Nat) (frame : RTUFrame)
    (hw : frame.WellTyped) (hd : frame.Data = []) :
    (crc m &&& 0xff < 256 ∧ crc m >>> 8 < 256 ∧ crc (m ++ [crc m &&& 0xff, crc m >>> 8]) = 0) ∧
      ∃ f, GenerateRTUFrame M frame = some f ∧ crc f = 0 := by
  have hres : ∀ l : List Nat, crc (l ++ [crc l &&& 0xff, crc l >>> 8]) = 0 := by
    intro l
    rw [crc_append, List.foldl_cons, List.foldl_cons, List.foldl_nil, ← low_byte_mod,
      refByte_low, refByte_self]
  refine ⟨⟨?_, ?_, hres m⟩, _, GenerateRTUFrame_empty M frame (by simp [hd]), ?_⟩
  · exact Nat.lt_of_le_of_lt Nat.and_le_right (by norm_num)
  · have := crc_lt m hm
    rw [Nat.shiftRight_eq_div_pow]
    omega
  · unfold closeFrame
    rw [low_byte_mod, high_byte_mod (crc_lt _ (bodyBytes_lt hw))]
    exact hres _

/-- C16 at the message `01 03 00 00 00 0A` and the request it encodes. -/
theorem C16_crc_residue_witness :
    (crc [1, 3, 0, 0, 0, 10] &&& 0xff < 256 ∧ crc [1, 3, 0, 0, 0, 10] >>> 8 < 256 ∧
        crc ([1, 3, 0, 0, 0, 10] ++
          [crc [1, 3, 0, 0, 0, 10] &&& 0xff, crc [1, 3, 0, 0, 0, 10] >>> 8]) = 0) ∧
      ∃ f, GenerateRTUFrame 512 ⟨1, 3, 0, 10, []⟩ = some f ∧ crc f = 0 :=
  C16_crc_residue [1, 3, 0, 0, 0, 10] (by decide) 512 ⟨1, 3, 0, 10, []⟩ (by decide) rfl

/-- C17: single-byte error detection. Two byte sequences of equal length that
differ at exactly one index have different CRCs; and for each fixed input byte
the per-byte accumulator update of `crc` is a bijection on the 16-bit states. -/
theorem C17_single_byte_error_detected (a b : List Nat) (ha : ∀ x ∈ a, x < 256)
    (hb : ∀ x ∈ b, x < 256) (hlen : a.length = b.length) (i : Nat) (hi : i < a.length)
    (hdiff : a[i]? ≠ b[i]?) (hsame : ∀ j, j ≠ i → a[j]? = b[j]?) :
    crc a ≠ crc b ∧
      ∀ x, x < 256 →
        Set.BijOn (fun crc16 => crcInner 8 (crc16 ^^^ x)) {c | c < 65536} {c | c < 65536} := by
  constructor
  · obtain ⟨p, t, x, y, rfl, rfl, hx, hy⟩ := split_single_difference a b hlen i hi hsame
    have hxy : x ≠ y := by
      intro e
      apply hdiff
      rw [hx, hy, e]
    have hp : ∀ z ∈ p, z < 256 := fun z hz => ha z (List.mem_append_left _ hz)
    have ht : ∀ z ∈ t, z < 256 := fun z hz =>
      ha z (List.mem_append_right _ (List.mem_cons_of_mem _ hz))
    have hxb : x < 256 := ha x (List.mem_append_right _ (List.mem_cons_self _ _))
    have hyb : y < 256 := hb y (List.mem_append_right _ (List.mem_cons_self _ _))
    have hc := crc_lt p hp
    rw [crc_append, crc_append, List.foldl_cons, List.foldl_cons]
    exact foldl_refByte_ne t ht _ _ (refByte_lt hc hxb) (refByte_lt hc hyb)
      (refByte_ne_of_byte hc hxb hyb hxy)
  · intro x hx
    have e : (fun crc16 => crcInner 8 (crc16 ^^^ x)) = fun s => refByte s x := by
      funext c
      rw [crcInner_eq_iterate]
      rfl
    rw [e]
    exact refByte_bijOn hx

/-- C17 at two six-byte messages that differ in their last byte only. -/
theorem C17_single_byte_error_detected_witness :
    crc [1, 3, 0, 0, 0, 10] ≠ crc [1, 3, 0, 0, 0, 0xF5] ∧
      ∀ x, x < 256 →
        Set.BijOn (fun crc16 => crcInner 8 (crc16 ^^^ x)) {c | c < 65536} {c | c < 65536} :=
  C17_single_byte_error_detected [1, 3, 0, 0, 0, 10] [1, 3, 0, 0, 0, 0xF5] (by decide)
    (by decide) rfl 5 (by decide) (by decide)
    (fun j hj => by
      have : j < 5 ∨ 5 < j := by omega
      rcases this with h | h
      · interval_cases j <;> rfl
      · rw [List.getElem?_eq_none (by simpa using h), List.getElem?_eq_none (by simpa using h)])

end Modbus
